import Mathlib

/-! # Verification of the Azure filesystem adapter (`azurefs.cc`)

Shallow embedding of `cpp/src/arrow/filesystem/azurefs.cc`: the path
model (`AzurePath`), the error mapper, the readable object handle
(`ObjectInputFile`) and the options / facade layer, together with
theorems settling the specification claims.

Strings are modelled as `List Char`.  Helpers that live elsewhere in
the repository (`arrow/filesystem/path_util.h`, `arrow/status.h`, the
`azurefs.h` header) are modelled from the specification and carry a
doc comment saying so.
-/

namespace AzureFs

/-- Strings of the C++ source are modelled as lists of characters. -/
abbrev Str := List Char

/-- Conversion from a Lean string literal to the model type. -/
def str (s : String) : Str := s.toList

/-- Modelled from the spec: the abstract path separator (`internal::kSep`). -/
def kSep : Char := '/'

/-- Modelled from the spec: `full_path` is normalized with trailing
separators stripped (`internal::RemoveTrailingSlash`). -/
def removeTrailingSlash (s : Str) : Str :=
  (s.reverse.dropWhile (fun c => c == kSep)).reverse

/-- Modelled from the spec: a URI-looking string has a scheme, i.e.
contains a colon (`internal::IsLikelyUri`). -/
def isLikelyUri (s : Str) : Bool := s.any (fun c => c == ':')

/-- First index of the separator, mirroring `std::string::find_first_of`
(`none` plays the role of `npos`). -/
def firstSepIdx : Str → Option Nat
  | [] => none
  | c :: rest => if c == kSep then some 0 else (firstSepIdx rest).map (· + 1)

/-- Splitting worker: accumulates the current segment (reversed). -/
def splitA : Str → Str → List Str
  | [], acc => [acc.reverse]
  | c :: rest, acc =>
      if c == kSep then acc.reverse :: splitA rest [] else splitA rest (c :: acc)

/-- Modelled from the spec: `relative_path` split on every separator
(`internal::SplitAbstractPath`); the empty string yields no segments. -/
def splitAbstractPath (l : Str) : List Str :=
  if l = [] then [] else splitA l []

/-- Modelled from the spec: a valid segment is non-empty and not one of
the reserved relative components `.` and `..`
(`internal::ValidateAbstractPathParts`). -/
def validSegment (p : Str) : Bool :=
  decide (p ≠ [] ∧ p ≠ str "." ∧ p ≠ str "..")

/-- Modelled from the spec: all segments must be valid. -/
def validateAbstractPathParts (parts : List Str) : Bool :=
  parts.all validSegment

/-- Modelled from the spec: rejoin segments with the separator
(`internal::JoinAbstractPath`). -/
def joinAbstractPath : List Str → Str
  | [] => []
  | [p] => p
  | p :: q :: rest => p ++ kSep :: joinAbstractPath (q :: rest)

/-- Modelled from the spec: the filesystem error taxonomy (§7); the
underlying `arrow::Status` type is not part of the excerpt.
`pathNotFound` and `notAFile` carry the full path, as the internal
status constructors `PathNotFound` / `NotAFile` do. -/
inductive FsError where
  | invalid (msg : Str)
  | ioError (msg : Str)
  | pathNotFound (path : Str)
  | notAFile (path : Str)
  | notImplemented
deriving DecidableEq

/-- `AzurePath`: a container and path within a storage account. -/
structure AzurePath where
  full_path : Str
  container : Str
  path_to_file : Str
  path_to_file_parts : List Str
deriving DecidableEq

/-- `AzurePath::FromString`.  The URI error message is abbreviated; the
control flow (URI check, trailing-slash strip, first-separator split,
leading-separator rejection, segment validation) follows the source. -/
def fromString (s : Str) : Except FsError AzurePath :=
  if isLikelyUri s then
    .error (.invalid (str "Expected an Azure object path of the form container/path..., got a URI: " ++ s))
  else
    match firstSepIdx (removeTrailingSlash s) with
    | some 0 => .error (.invalid (str "Path cannot start with a separator (" ++ s ++ str ")"))
    | none => .ok ⟨removeTrailingSlash s, removeTrailingSlash s, [], []⟩
    | some k =>
        if validateAbstractPathParts
            (splitAbstractPath ((removeTrailingSlash s).drop (k + 1))) then
          .ok ⟨removeTrailingSlash s, (removeTrailingSlash s).take k,
               (removeTrailingSlash s).drop (k + 1),
               splitAbstractPath ((removeTrailingSlash s).drop (k + 1))⟩
        else
          .error (.invalid (str "Invalid path component in path " ++ removeTrailingSlash s))

/-- `AzurePath::parent`: pops the last segment, rejoins the rest,
and recomputes `full_path`. -/
def AzurePath.parent (p : AzurePath) : AzurePath :=
  let parts := p.path_to_file_parts.dropLast
  let ptf := joinAbstractPath parts
  ⟨if ptf = [] then p.container else p.container ++ kSep :: ptf,
   p.container, ptf, parts⟩

/-- `AzurePath::has_parent`. -/
def AzurePath.has_parent (p : AzurePath) : Bool := !p.path_to_file.isEmpty

/-- `AzurePath::empty`. -/
def AzurePath.isEmptyPath (p : AzurePath) : Bool :=
  p.container.isEmpty && p.path_to_file.isEmpty

/-- `AzurePath::operator==`: equality on `(container, path_to_file)`. -/
def AzurePath.beq (p other : AzurePath) : Bool :=
  p.container == other.container && p.path_to_file == other.path_to_file

/-- Modelled from the spec: local helper `PathNotFound` (a path-not-found
error carrying the full path of the address). -/
def pathNotFoundStatus (p : AzurePath) : FsError := .pathNotFound p.full_path

/-- Modelled from the spec: local helper `NotAFile` (a not-a-file error
carrying the full path of the address). -/
def notAFileStatus (p : AzurePath) : FsError := .notAFile p.full_path

/-- `ValidateFilePath`: empty container is path-not-found, empty relative
path is not-a-file; both checks are local (no store access). -/
def validateFilePath (p : AzurePath) : Except FsError Unit :=
  if p.container = [] then .error (pathNotFoundStatus p)
  else if p.path_to_file = [] then .error (notAFileStatus p)
  else .ok ()

/-- A store exception (`Azure::Storage::StorageException`): the HTTP
status code and the exception text (`what()`). -/
structure StorageException where
  statusCode : Nat
  what : Str
deriving DecidableEq

/-- The HTTP status code `Azure::Core::Http::HttpStatusCode::NotFound`. -/
def notFoundHttpCode : Nat := 404

/-- `ErrorToStatus`: wrap a store exception into an I/O error, context
first, then the exception text. -/
def errorToStatus (ctxPre : Str) (exception : StorageException) : FsError :=
  .ioError (ctxPre ++ str " Azure Error: " ++ exception.what)

/-- Blob properties returned by `GetProperties`: the blob size and the
iterable key/value metadata. -/
structure BlobProperties where
  blobSize : Int
  metadata : List (Str × Str)

/-- `GetObjectMetadata`: copies every (key, value) property pair, in
order, into a fresh key-value metadata object. -/
def getObjectMetadata (result : List (Str × Str)) : List (Str × Str) :=
  result.foldl (fun md kv => md ++ [kv]) []

/-- A store blob client (`Azure::Storage::Blobs::BlobClient`), modelled
by its observable behaviour: its URL, the outcome of a properties fetch,
and the outcome (bytes delivered, per the reported content-range length)
of a ranged download given a position and a byte count. -/
structure BlobClient where
  url : Str
  getProperties : Unit → Except StorageException BlobProperties
  downloadTo : Int → Int → Except StorageException Int

/-- The sentinel `kNoSize` for an unresolved content length. -/
def kNoSize : Int := -1

/-- `ObjectInputFile` state.  The store client is `none` once released by
`Close` (the C++ null pointer); buffers are represented by their sizes,
and the borrowed I/O context (used only for its allocation pool) is not
represented. -/
structure ObjectInputFile where
  blob_client_ : Option BlobClient
  path_ : AzurePath
  closed_ : Bool
  pos_ : Int
  content_length_ : Int
  metadata_ : List (Str × Str)

/-- `ObjectInputFile::Init`: trust a size supplied at construction;
otherwise fetch properties once, mapping a not-found status to
path-not-found and any other store exception through `ErrorToStatus`
with the fetching-properties context.  (The null-client branch is
unreachable: the client is only released by `Close`.) -/
def init (f : ObjectInputFile) : Except FsError ObjectInputFile :=
  if f.content_length_ ≠ kNoSize then .ok f
  else
    match f.blob_client_ with
    | none => .error (.ioError (str "null blob client"))
    | some client =>
      match client.getProperties () with
      | .ok properties =>
          .ok { f with content_length_ := properties.blobSize,
                       metadata_ := getObjectMetadata properties.metadata }
      | .error exception =>
          if exception.statusCode = notFoundHttpCode then
            .error (pathNotFoundStatus f.path_)
          else
            .error (errorToStatus
              (str "When fetching properties for " ++ client.url ++ str ": ")
              exception)

/-- `ObjectInputFile::CheckClosed`. -/
def checkClosed (f : ObjectInputFile) (action : Str) : Except FsError Unit :=
  if f.closed_ then
    .error (.invalid (str "Cannot " ++ action ++ str " on closed file."))
  else .ok ()

/-- `ObjectInputFile::CheckPosition`. -/
def checkPosition (f : ObjectInputFile) (position : Int) (action : Str) :
    Except FsError Unit :=
  if position < 0 then
    .error (.invalid (str "Cannot " ++ action ++ str " from negative position"))
  else if position > f.content_length_ then
    .error (.ioError (str "Cannot " ++ action ++ str " past end of file"))
  else .ok ()

/-- `ObjectInputFile::ReadMetadata`: returns the cached metadata
(no closed-handle check in the source). -/
def readMetadata (f : ObjectInputFile) : Except FsError (List (Str × Str)) :=
  .ok f.metadata_

/-- `ObjectInputFile::ReadMetadataAsync`: an already-resolved future
holding the cached metadata (no closed-handle check in the source). -/
def readMetadataAsync (f : ObjectInputFile) (_ioContext : Unit) :
    Except FsError (List (Str × Str)) :=
  .ok f.metadata_

/-- `ObjectInputFile::Close`: release the client, set the closed flag,
return OK. -/
def close (f : ObjectInputFile) : Except FsError ObjectInputFile :=
  .ok { f with blob_client_ := none, closed_ := true }

/-- `ObjectInputFile::closed`. -/
def closed (f : ObjectInputFile) : Bool := f.closed_

/-- `ObjectInputFile::Tell`. -/
def tell (f : ObjectInputFile) : Except FsError Int :=
  match checkClosed f (str "tell") with
  | .error e => .error e
  | .ok _ => .ok f.pos_

/-- `ObjectInputFile::GetSize`. -/
def getSize (f : ObjectInputFile) : Except FsError Int :=
  match checkClosed f (str "size") with
  | .error e => .error e
  | .ok _ => .ok f.content_length_

/-- `ObjectInputFile::Seek`. -/
def seek (f : ObjectInputFile) (position : Int) :
    Except FsError ObjectInputFile :=
  match checkClosed f (str "seek") with
  | .error e => .error e
  | .ok _ =>
  match checkPosition f position (str "seek") with
  | .error e => .error e
  | .ok _ => .ok { f with pos_ := position }

/-- `ObjectInputFile::ReadAt(position, nbytes, out)`: closed and position
checks, clamp to the remaining length, return 0 for an empty clamped
request before touching the client, otherwise issue one ranged download
of exactly the clamped count and return the delivered length, mapping
store failures through `ErrorToStatus`. -/
def readAt (f : ObjectInputFile) (position nbytes : Int) :
    Except FsError Int :=
  match checkClosed f (str "read") with
  | .error e => .error e
  | .ok _ =>
  match checkPosition f position (str "read") with
  | .error e => .error e
  | .ok _ =>
    if min nbytes (f.content_length_ - position) = 0 then .ok 0
    else
      match f.blob_client_ with
      | none => .error (.ioError (str "null blob client"))
      | some client =>
        match client.downloadTo position (min nbytes (f.content_length_ - position)) with
        | .ok len => .ok len
        | .error exception =>
            .error (errorToStatus
              (str "When reading from " ++ client.url ++ str " at position " ++
               str (toString position) ++ str " for " ++
               str (toString (min nbytes (f.content_length_ - position))) ++
               str " bytes: ")
              exception)

/-- Modelled from the spec: buffer allocation
(`AllocateResizableBuffer`), with buffers represented by their sizes; a
negative size is a local error. -/
def allocateResizableBuffer (size : Int) : Except FsError Int :=
  if size < 0 then .error (.invalid (str "negative buffer size"))
  else .ok size

/-- `ObjectInputFile::ReadAt(position, nbytes)` (buffer variant): clamp,
allocate the clamped size, fill through the byte variant when the
clamped size is positive, and resize down to the delivered count. -/
def readAtBuffer (f : ObjectInputFile) (position nbytes : Int) :
    Except FsError Int :=
  match checkClosed f (str "read") with
  | .error e => .error e
  | .ok _ =>
  match checkPosition f position (str "read") with
  | .error e => .error e
  | .ok _ =>
    match allocateResizableBuffer (min nbytes (f.content_length_ - position)) with
    | .error e => .error e
    | .ok buffer =>
      if min nbytes (f.content_length_ - position) > 0 then
        match readAt f position (min nbytes (f.content_length_ - position)) with
        | .error e => .error e
        | .ok bytesRead => .ok bytesRead
      else .ok buffer

/-- `ObjectInputFile::Read(nbytes, out)`: read at the cursor, then
advance the cursor by the bytes actually delivered. -/
def read (f : ObjectInputFile) (nbytes : Int) :
    Except FsError (Int × ObjectInputFile) :=
  match readAt f f.pos_ nbytes with
  | .error e => .error e
  | .ok bytesRead => .ok (bytesRead, { f with pos_ := f.pos_ + bytesRead })

/-- `ObjectInputFile::Read(nbytes)` (buffer variant): read at the cursor,
then advance the cursor by the size of the returned buffer. -/
def readBuffer (f : ObjectInputFile) (nbytes : Int) :
    Except FsError (Int × ObjectInputFile) :=
  match readAtBuffer f f.pos_ nbytes with
  | .error e => .error e
  | .ok buffer => .ok (buffer, { f with pos_ := f.pos_ + buffer })

/-- Modelled from the spec: the backend selector (header not in the
excerpt); a real cloud backend or the local emulator. -/
inductive AzureBackend where
  | azure
  | azurite
deriving DecidableEq

/-- Modelled from the spec: the credential-kind discriminant (header not
in the excerpt): shared-key, default-identity, managed-identity or
service-principal. -/
inductive AzureCredentialsKind where
  | storageCredentials
  | defaultCredentials
  | managedIdentityCredentials
  | servicePrincipalCredentials
deriving DecidableEq

/-- The opaque credential handle
(`Azure::Storage::StorageSharedKeyCredential`): account name and secret
key material. -/
structure StorageSharedKeyCredential where
  accountName : Str
  accountKey : Str
deriving DecidableEq

/-- Modelled from the spec: the configuration object `AzureOptions`
(declared in the header): two base URLs, the credential-kind
discriminant, the opaque credential handle, and the backend selector. -/
structure AzureOptions where
  account_dfs_url : Str
  account_blob_url : Str
  credentials_kind : AzureCredentialsKind
  storage_credentials_provider : Option StorageSharedKeyCredential
  backend : AzureBackend
deriving DecidableEq

/-- `AzureOptions::Equals`: compares the two URLs and the credential
kind only. -/
def AzureOptions.equals (o other : AzureOptions) : Bool :=
  o.account_dfs_url == other.account_dfs_url &&
  o.account_blob_url == other.account_blob_url &&
  decide (o.credentials_kind = other.credentials_kind)

/-- `AzureOptions::ConfigureAccountKeyCredentials`. -/
def AzureOptions.configureAccountKeyCredentials (o : AzureOptions)
    (account_name account_key : Str) : AzureOptions :=
  let opts :=
    if o.backend = AzureBackend.azurite then
      { o with
        account_blob_url := str "http://127.0.0.1:10000/" ++ account_name ++ str "/",
        account_dfs_url := str "http://127.0.0.1:10000/" ++ account_name ++ str "/" }
    else
      { o with
        account_dfs_url := str "https://" ++ account_name ++ str ".dfs.core.windows.net/",
        account_blob_url := str "https://" ++ account_name ++ str ".blob.core.windows.net/" }
  { opts with
    storage_credentials_provider := some ⟨account_name, account_key⟩,
    credentials_kind := AzureCredentialsKind.storageCredentials }

/-- The blob service client, modelled by the blob clients it hands out:
`GetBlobContainerClient(container).GetBlobClient(path_to_file)`. -/
structure BlobServiceClient where
  getBlobClient : Str → Str → BlobClient

/-- Modelled from the spec: `internal::AssertNoTrailingSlash` — a
file-target string must not end with a separator (§6 address format);
the facade asserts this before parsing. -/
def assertNoTrailingSlash (s : Str) : Except FsError Unit :=
  if s.getLast? = some kSep then
    .error (.invalid (str "Path must not end with a slash: " ++ s))
  else .ok ()

/-- `AzureFileSystem::Impl::OpenInputFile(s, fs)`: assert no trailing
slash, parse, validate the address locally, only then construct a blob
client from the service client and initialize the handle. -/
def openInputFile (service : BlobServiceClient) (s : Str) :
    Except FsError ObjectInputFile :=
  match assertNoTrailingSlash s with
  | .error e => .error e
  | .ok _ =>
  match fromString s with
  | .error e => .error e
  | .ok path =>
  match validateFilePath path with
  | .error e => .error e
  | .ok _ =>
      init ⟨some (service.getBlobClient path.container path.path_to_file),
            path, false, 0, kNoSize, []⟩

/-! ## Concrete fixtures used by witnesses -/

/-- A sample parsed address `c/f`. -/
def samplePath : AzurePath := ⟨str "c/f", str "c", str "f", [str "f"]⟩

/-- A store client that delivers every requested range in full. -/
def fullClient : BlobClient :=
  ⟨str "https://acct/c/f", fun _ => .ok ⟨12, []⟩, fun _ nbytes => .ok nbytes⟩

/-- A store client whose range fetches come up one byte short. -/
def shortClient : BlobClient :=
  ⟨str "https://acct/c/f", fun _ => .ok ⟨12, []⟩, fun _ nbytes => .ok (nbytes - 1)⟩

/-- A store client whose property fetch fails with a not-found status. -/
def notFoundClient : BlobClient :=
  ⟨str "https://acct/c/f",
   fun _ => .error ⟨notFoundHttpCode, str "resource not found"⟩,
   fun _ nbytes => .ok nbytes⟩

/-- A store client whose property fetch fails with a server error. -/
def brokenClient : BlobClient :=
  ⟨str "https://acct/c/f",
   fun _ => .error ⟨500, str "boom"⟩,
   fun _ nbytes => .ok nbytes⟩

/-- An initialized, non-closed handle of resolved length 12. -/
def file12 : ObjectInputFile := ⟨some fullClient, samplePath, false, 0, 12, []⟩

/-- Same handle over the short-delivering client. -/
def file12short : ObjectInputFile :=
  ⟨some shortClient, samplePath, false, 0, 12, []⟩

/-- An uninitialized handle over the not-found client. -/
def fileNotFound : ObjectInputFile :=
  ⟨some notFoundClient, samplePath, false, 0, kNoSize, []⟩

/-- An uninitialized handle over the broken client. -/
def fileBroken : ObjectInputFile :=
  ⟨some brokenClient, samplePath, false, 0, kNoSize, []⟩

/-- A service client handing out the full-delivery client everywhere. -/
def sampleService : BlobServiceClient := ⟨fun _ _ => fullClient⟩

/-! ## Helper lemmas on the string utilities -/

theorem mem_of_mem_removeTrailingSlash {x : Char} {l : Str}
    (h : x ∈ removeTrailingSlash l) : x ∈ l := by
  unfold removeTrailingSlash at h
  rw [List.mem_reverse] at h
  exact List.mem_reverse.mp ((List.dropWhile_suffix _).subset h)

theorem isLikelyUri_eq_false {l : Str} (h : ':' ∉ l) :
    isLikelyUri l = false := by
  simp only [isLikelyUri, List.any_eq_false, beq_iff_eq]
  intro x hx hcol
  exact h (hcol ▸ hx)

theorem isLikelyUri_removeTrailingSlash {l : Str}
    (h : isLikelyUri l = false) :
    isLikelyUri (removeTrailingSlash l) = false := by
  simp only [isLikelyUri, List.any_eq_false, beq_iff_eq] at h ⊢
  intro x hx
  exact h x (mem_of_mem_removeTrailingSlash hx)

theorem removeTrailingSlash_idem (l : Str) :
    removeTrailingSlash (removeTrailingSlash l) = removeTrailingSlash l := by
  unfold removeTrailingSlash
  rw [List.reverse_reverse, List.dropWhile_idempotent]

theorem removeTrailingSlash_eq_self {l : Str}
    (h : ∀ c t, l.reverse = c :: t → (c == kSep) = false) :
    removeTrailingSlash l = l := by
  unfold removeTrailingSlash
  cases hrev : l.reverse with
  | nil =>
      have hl : l = [] := by
        have := congrArg List.reverse hrev
        simpa using this
      simp [hl]
  | cons c t =>
      rw [List.dropWhile_cons, h c t hrev, if_neg (by simp)]
      rw [← hrev, List.reverse_reverse]

theorem removeTrailingSlash_of_not_mem {l : Str} (h : kSep ∉ l) :
    removeTrailingSlash l = l := by
  apply removeTrailingSlash_eq_self
  intro c t hrev
  have hc : c ∈ l := List.mem_reverse.mp (hrev ▸ List.mem_cons_self c t)
  simp only [beq_eq_false_iff_ne, ne_eq]
  intro hck
  exact h (hck ▸ hc)

theorem removeTrailingSlash_append_of_last {x b : Str} (hb : b ≠ [])
    (hsep : kSep ∉ b) : removeTrailingSlash (x ++ b) = x ++ b := by
  apply removeTrailingSlash_eq_self
  intro c t hrev
  rw [List.reverse_append] at hrev
  cases hbr : b.reverse with
  | nil => exact absurd (by simpa using congrArg List.reverse hbr) hb
  | cons c' t' =>
      rw [hbr, List.cons_append] at hrev
      have hcc : c = c' := by
        injection hrev with h1 h2
        exact h1.symm
      have hc'b : c' ∈ b := List.mem_reverse.mp (hbr ▸ List.mem_cons_self c' t')
      simp only [beq_eq_false_iff_ne, ne_eq, hcc]
      intro hck
      exact hsep (hck ▸ hc'b)

theorem firstSepIdx_of_not_mem : ∀ l : Str, kSep ∉ l →
    firstSepIdx l = none := by
  intro l
  induction l with
  | nil => intro _; rfl
  | cons c rest ih =>
      intro h
      have hc : ¬(c == kSep) = true := by
        simp only [beq_iff_eq]
        intro hck
        exact h (hck ▸ List.mem_cons_self c rest)
      simp only [firstSepIdx, if_neg hc,
        ih (fun hm => h (List.mem_cons_of_mem c hm)), Option.map_none']

theorem firstSepIdx_append (r : Str) : ∀ c : Str, kSep ∉ c →
    firstSepIdx (c ++ kSep :: r) = some c.length := by
  intro c
  induction c with
  | nil => intro _; simp [firstSepIdx]
  | cons x c' ih =>
      intro h
      have hx : ¬(x == kSep) = true := by
        simp only [beq_iff_eq]
        intro hck
        exact h (hck ▸ List.mem_cons_self x c')
      have hc' : kSep ∉ c' := fun hm => h (List.mem_cons_of_mem x hm)
      have hx' : ¬x = kSep := by simpa using hx
      simp [firstSepIdx, hx', ih hc']

theorem splitA_of_not_mem : ∀ l : Str, kSep ∉ l → ∀ acc : Str,
    splitA l acc = [acc.reverse ++ l] := by
  intro l
  induction l with
  | nil => intro _ acc; simp [splitA]
  | cons c rest ih =>
      intro h acc
      have hc : ¬(c == kSep) = true := by
        simp only [beq_iff_eq]
        intro hck
        exact h (hck ▸ List.mem_cons_self c rest)
      rw [splitA, if_neg hc,
        ih (fun hm => h (List.mem_cons_of_mem c hm)) (c :: acc)]
      simp

theorem splitA_append_sep (r : Str) : ∀ a : Str, kSep ∉ a → ∀ acc : Str,
    splitA (a ++ kSep :: r) acc = (acc.reverse ++ a) :: splitA r [] := by
  intro a
  induction a with
  | nil => intro _ acc; simp [splitA]
  | cons c a' ih =>
      intro h acc
      have hc : ¬(c == kSep) = true := by
        simp only [beq_iff_eq]
        intro hck
        exact h (hck ▸ List.mem_cons_self c a')
      rw [List.cons_append, splitA, if_neg hc,
        ih (fun hm => h (List.mem_cons_of_mem c hm)) (c :: acc)]
      simp

theorem splitAbstractPath_pair {a b : Str} (ha : kSep ∉ a)
    (hb : kSep ∉ b) : splitAbstractPath (a ++ kSep :: b) = [a, b] := by
  rw [splitAbstractPath, if_neg (by simp)]
  rw [splitA_append_sep b a ha [], splitA_of_not_mem b hb []]
  simp

/-! ## Claim theorems -/

/-- C10: `Close` always returns OK and is idempotent: it releases the
store-client handle and sets the closed flag, and a second `Close` on
the already-closed handle is a no-op that again returns OK, leaving the
flag true. -/
theorem close_ok_idempotent (f : ObjectInputFile) :
    close f = .ok { f with blob_client_ := none, closed_ := true } ∧
    ({ f with blob_client_ := none, closed_ := true } : ObjectInputFile).closed_ = true ∧
    ({ f with blob_client_ := none, closed_ := true } : ObjectInputFile).blob_client_ = none ∧
    close { f with blob_client_ := none, closed_ := true } =
      .ok { f with blob_client_ := none, closed_ := true } :=
  ⟨rfl, rfl, rfl, rfl⟩

/-- C9: `ReadMetadata` and `ReadMetadataAsync` return the cached
metadata with no closed-handle check, so they still succeed on the
handle produced by `Close`, while `Tell`, `GetSize`, `Seek` and all the
read operations fail on it with the closed-file error. -/
theorem metadata_survives_close (f : ObjectInputFile) :
    readMetadata f = .ok f.metadata_ ∧
    readMetadataAsync f () = .ok f.metadata_ ∧
    close f = .ok { f with blob_client_ := none, closed_ := true } ∧
    readMetadata { f with blob_client_ := none, closed_ := true } = .ok f.metadata_ ∧
    readMetadataAsync { f with blob_client_ := none, closed_ := true } () = .ok f.metadata_ ∧
    tell { f with blob_client_ := none, closed_ := true } =
      .error (.invalid (str "Cannot tell on closed file.")) ∧
    getSize { f with blob_client_ := none, closed_ := true } =
      .error (.invalid (str "Cannot size on closed file.")) ∧
    (∀ p : Int, seek { f with blob_client_ := none, closed_ := true } p =
      .error (.invalid (str "Cannot seek on closed file."))) ∧
    (∀ p n : Int, readAt { f with blob_client_ := none, closed_ := true } p n =
      .error (.invalid (str "Cannot read on closed file."))) ∧
    (∀ p n : Int, readAtBuffer { f with blob_client_ := none, closed_ := true } p n =
      .error (.invalid (str "Cannot read on closed file."))) ∧
    (∀ n : Int, read { f with blob_client_ := none, closed_ := true } n =
      .error (.invalid (str "Cannot read on closed file."))) ∧
    (∀ n : Int, readBuffer { f with blob_client_ := none, closed_ := true } n =
      .error (.invalid (str "Cannot read on closed file."))) :=
  ⟨rfl, rfl, rfl, rfl, rfl, rfl, rfl, fun _ => rfl, fun _ _ => rfl, fun _ _ => rfl,
   fun _ => rfl, fun _ => rfl⟩

/-- C8: configuration equality holds iff the two base URLs and the
credential-kind discriminant are all equal; in particular two
configurations differing only in secret material compare equal. -/
theorem options_equals_shallow (o other : AzureOptions) :
    (AzureOptions.equals o other = true ↔
      (o.account_dfs_url = other.account_dfs_url ∧
       o.account_blob_url = other.account_blob_url ∧
       o.credentials_kind = other.credentials_kind)) ∧
    (∀ c1 c2 : Option StorageSharedKeyCredential,
      AzureOptions.equals { o with storage_credentials_provider := c1 }
        { o with storage_credentials_provider := c2 } = true) :=
  ⟨by simp [AzureOptions.equals, Bool.and_eq_true, and_assoc],
   fun c1 c2 => by simp [AzureOptions.equals]⟩

/-- C4: `Seek` fails with an invalid-argument error on a closed handle,
fails with an invalid-argument error for a negative position, fails
with an I/O error for a position beyond the content length, and
otherwise (the boundary `position == content_length` included)
succeeds, setting the cursor. -/
theorem seek_spec (f : ObjectInputFile) (position : Int) :
    (f.closed_ = true →
      seek f position = .error (.invalid (str "Cannot seek on closed file."))) ∧
    (f.closed_ = false → position < 0 →
      seek f position = .error (.invalid (str "Cannot seek from negative position"))) ∧
    (f.closed_ = false → 0 ≤ position → f.content_length_ < position →
      seek f position = .error (.ioError (str "Cannot seek past end of file"))) ∧
    (f.closed_ = false → 0 ≤ position → position ≤ f.content_length_ →
      seek f position = .ok { f with pos_ := position }) := by
  refine ⟨fun h => ?_, fun h h0 => ?_, fun h h0 hL => ?_, fun h h0 hL => ?_⟩
  · simp [seek, checkClosed, h]
    decide
  · simp [seek, checkClosed, checkPosition, h, h0]
    decide
  · simp [seek, checkClosed, checkPosition, h, not_lt.mpr h0, hL]
    decide
  · simp [seek, checkClosed, checkPosition, h, not_lt.mpr h0, not_lt.mpr hL]

/-- Witness for C4: on the length-12 handle, seeking to 13 is an I/O
error, seeking to the boundary 12 succeeds. -/
theorem seek_spec_witness :
    seek file12 13 = .error (.ioError (str "Cannot seek past end of file")) ∧
    seek file12 12 = .ok { file12 with pos_ := 12 } :=
  ⟨(seek_spec file12 13).2.2.1 rfl (by decide) (by decide),
   (seek_spec file12 12).2.2.2 rfl (by decide) (by decide)⟩

/-- C1: on an initialized, non-closed handle and a valid position,
`ReadAt` clamps the requested count to `content_length - position`
(reading the clamped count is indistinguishable from reading the
original), a zero clamped count returns 0 immediately for every
possible store client (so without any store call), a positive clamped
count is exactly what the single ranged fetch is issued with, and on
the length-12 handle `ReadAt(10, 100)` returns 2 bytes. -/
theorem readAt_clamps (f : ObjectInputFile) (p n : Int)
    (hcl : f.closed_ = false) (hp0 : 0 ≤ p) (hpL : p ≤ f.content_length_)
    (_hn : 0 ≤ n) :
    readAt f p n = readAt f p (min n (f.content_length_ - p)) ∧
    (min n (f.content_length_ - p) = 0 →
      ∀ cl : Option BlobClient,
        readAt { f with blob_client_ := cl } p n = .ok 0) ∧
    (∀ (c : BlobClient) (d : Int), f.blob_client_ = some c →
      0 < min n (f.content_length_ - p) →
      c.downloadTo p (min n (f.content_length_ - p)) = .ok d →
      readAt f p n = .ok d) ∧
    readAt file12 10 100 = .ok 2 := by
  have hmm : min (min n (f.content_length_ - p)) (f.content_length_ - p) =
      min n (f.content_length_ - p) := by rw [min_assoc, min_self]
  refine ⟨?_, fun hmin cl => ?_, fun c d hc hmin hdl => ?_, rfl⟩
  · simp only [readAt, hmm]
  · simp [readAt, checkClosed, checkPosition, hcl, not_lt.mpr hp0,
      not_lt.mpr hpL, hmin]
  · simp [readAt, checkClosed, checkPosition, hcl, not_lt.mpr hp0,
      not_lt.mpr hpL, hmin.ne', hc, hdl]

/-- Witness for C1: at position 12 of the length-12 handle the clamped
count is 0 and `ReadAt` returns 0 even with the client released. -/
theorem readAt_clamps_witness :
    readAt { file12 with blob_client_ := none } 12 5 = .ok 0 :=
  (readAt_clamps file12 12 5 rfl (by decide) (by decide) (by decide)).2.1
    (by decide) none

/-- C2: the stateful `Read` operations read at the current cursor and
advance the cursor by exactly the number of bytes actually delivered by
the underlying `ReadAt`, leaving the rest of the handle state intact,
so sequential reads resume where the delivered bytes ended. -/
theorem read_advances_by_delivered (f : ObjectInputFile) (nbytes : Int)
    (_hcl : f.closed_ = false) :
    (∀ (k : Int) (f' : ObjectInputFile), read f nbytes = .ok (k, f') →
      readAt f f.pos_ nbytes = .ok k ∧ f'.pos_ = f.pos_ + k ∧
      f'.closed_ = f.closed_ ∧ f'.content_length_ = f.content_length_ ∧
      f'.blob_client_ = f.blob_client_) ∧
    (∀ (k : Int) (f' : ObjectInputFile), readBuffer f nbytes = .ok (k, f') →
      readAtBuffer f f.pos_ nbytes = .ok k ∧ f'.pos_ = f.pos_ + k ∧
      f'.closed_ = f.closed_ ∧ f'.content_length_ = f.content_length_ ∧
      f'.blob_client_ = f.blob_client_) := by
  constructor
  · intro k f' h
    unfold read at h
    cases hr : readAt f f.pos_ nbytes with
    | error e => rw [hr] at h; exact absurd h (by simp)
    | ok b =>
        rw [hr] at h
        simp only [Except.ok.injEq, Prod.mk.injEq] at h
        obtain ⟨hb, hf'⟩ := h
        subst hb; subst hf'
        exact ⟨rfl, rfl, rfl, rfl, rfl⟩
  · intro k f' h
    unfold readBuffer at h
    cases hr : readAtBuffer f f.pos_ nbytes with
    | error e => rw [hr] at h; exact absurd h (by simp)
    | ok b =>
        rw [hr] at h
        simp only [Except.ok.injEq, Prod.mk.injEq] at h
        obtain ⟨hb, hf'⟩ := h
        subst hb; subst hf'
        exact ⟨rfl, rfl, rfl, rfl, rfl⟩

/-- Witness for C2: on the short-delivering handle a 5-byte read
delivers 4 bytes and moves the cursor to 4, not 5. -/
theorem read_advances_by_delivered_witness :
    readAt file12short 0 5 = .ok 4 ∧
    ({ file12short with pos_ := 4 } : ObjectInputFile).pos_ = file12short.pos_ + 4 ∧
    ({ file12short with pos_ := 4 } : ObjectInputFile).closed_ = file12short.closed_ ∧
    ({ file12short with pos_ := 4 } : ObjectInputFile).content_length_ =
      file12short.content_length_ ∧
    ({ file12short with pos_ := 4 } : ObjectInputFile).blob_client_ =
      file12short.blob_client_ :=
  (read_advances_by_delivered file12short 5 rfl).1 4
    { file12short with pos_ := 4 } rfl

/-- C5: when the one-time property fetch of `Init` fails, a not-found
store status maps to a path-not-found error carrying the full path of
the original address, and any other store exception maps to an I/O
error whose message is the fetching-properties context followed by the
text of the exception. -/
theorem init_error_mapping (f : ObjectInputFile) (c : BlobClient)
    (e : StorageException) (hsize : f.content_length_ = kNoSize)
    (hc : f.blob_client_ = some c) (hprops : c.getProperties () = .error e) :
    (e.statusCode = notFoundHttpCode →
      init f = .error (.pathNotFound f.path_.full_path)) ∧
    (e.statusCode ≠ notFoundHttpCode →
      init f = .error (.ioError
        (str "When fetching properties for " ++ c.url ++ str ": " ++
         str " Azure Error: " ++ e.what))) := by
  constructor
  · intro h404
    simp [init, hsize, hc, hprops, h404, pathNotFoundStatus]
  · intro hother
    simp [init, hsize, hc, hprops, hother, errorToStatus, List.append_assoc]

/-- Witness for C5: the not-found handle initializes to path-not-found
carrying `c/f`; the broken handle initializes to the wrapped I/O
error. -/
theorem init_error_mapping_witness :
    init fileNotFound = .error (.pathNotFound (str "c/f")) ∧
    init fileBroken = .error (.ioError
      (str "When fetching properties for " ++ str "https://acct/c/f" ++
       str ": " ++ str " Azure Error: " ++ str "boom")) :=
  ⟨(init_error_mapping fileNotFound notFoundClient
      ⟨notFoundHttpCode, str "resource not found"⟩ rfl rfl rfl).1 rfl,
   (init_error_mapping fileBroken brokenClient
      ⟨500, str "boom"⟩ rfl rfl rfl).2 (by decide)⟩

/-- C6: a resolved address with an empty container raises path-not-found
and a bare container address raises not-a-file, both locally; an
address passing validation has both components non-empty; and when
validation fails, `OpenInputFile` returns that local error for every
possible service client, so the address never reaches the store. -/
theorem local_address_validation (p : AzurePath) (service : BlobServiceClient)
    (s : Str) (path : AzurePath) (e : FsError) :
    (p.container = [] →
      validateFilePath p = .error (.pathNotFound p.full_path)) ∧
    (p.container ≠ [] → p.path_to_file = [] →
      validateFilePath p = .error (.notAFile p.full_path)) ∧
    (validateFilePath p = .ok () → p.container ≠ [] ∧ p.path_to_file ≠ []) ∧
    (assertNoTrailingSlash s = .ok () → fromString s = .ok path →
      validateFilePath path = .error e →
      openInputFile service s = .error e) := by
  refine ⟨fun hc => ?_, fun hc hf => ?_, fun hok => ?_, fun h1 h2 h3 => ?_⟩
  · simp [validateFilePath, hc, pathNotFoundStatus]
  · simp [validateFilePath, hc, hf, notAFileStatus]
  · constructor
    · intro hc
      simp [validateFilePath, hc, pathNotFoundStatus] at hok
    · intro hf
      by_cases hc : p.container = []
      · simp [validateFilePath, hc, pathNotFoundStatus] at hok
      · simp [validateFilePath, hc, hf, notAFileStatus] at hok
  · simp [openInputFile, h1, h2, h3]

/-- Witness for C6: the empty-string address resolves to path-not-found,
and opening the bare container address fails with not-a-file before any
store access. -/
theorem local_address_validation_witness :
    validateFilePath ⟨[], [], [], []⟩ = .error (.pathNotFound []) ∧
    openInputFile sampleService (str "container") =
      .error (.notAFile (str "container")) :=
  ⟨(local_address_validation ⟨[], [], [], []⟩ sampleService [] ⟨[], [], [], []⟩
      (.pathNotFound [])).1 rfl,
   (local_address_validation ⟨[], [], [], []⟩ sampleService (str "container")
      ⟨str "container", str "container", [], []⟩
      (.notAFile (str "container"))).2.2.2 rfl rfl rfl⟩

/-- Evaluation of `fromString` on a string with a separator after a
non-empty separator-free container, when the string carries no trailing
separator and the segments validate. -/
theorem fromString_append_sep (rest : Str) : ∀ c : Str, c ≠ [] → kSep ∉ c →
    isLikelyUri (c ++ kSep :: rest) = false →
    removeTrailingSlash (c ++ kSep :: rest) = c ++ kSep :: rest →
    validateAbstractPathParts (splitAbstractPath rest) = true →
    fromString (c ++ kSep :: rest) =
      .ok ⟨c ++ kSep :: rest, c, rest, splitAbstractPath rest⟩ := by
  intro c hne hsep hnuri hrts hv
  obtain ⟨ch, c', rfl⟩ := List.exists_cons_of_ne_nil hne
  unfold fromString
  rw [hrts, firstSepIdx_append rest (ch :: c') hsep]
  simp only [hnuri, Bool.false_eq_true, if_false, List.length_cons]
  have htake : ((ch :: c') ++ kSep :: rest).take (c'.length + 1) = ch :: c' := by
    have h0 := List.take_left (ch :: c') (kSep :: rest)
    simp only [List.length_cons] at h0
    exact h0
  have hdrop : ((ch :: c') ++ kSep :: rest).drop (c'.length + 1 + 1) = rest := by
    have h0 := List.drop_left (ch :: c' ++ [kSep]) rest
    simp only [List.length_append, List.length_cons, List.length_nil,
      List.append_assoc, List.cons_append, List.nil_append] at h0
    exact h0
  rw [hdrop, htake]
  simp [hv]

/-- C3: parsing `c/a/b` (valid separator-free segments) splits at the
first separator only — container `c`, relative path `a/b`, segments
`[a, b]` — and `parent()` pops the last segment, recomputing the full
path as the container, a separator, and the rejoined remainder; a
string without separators parses to itself as both container and full
path, with empty relative path and segments. -/
theorem parse_first_sep_and_parent (c a b s : Str)
    (hc_ne : c ≠ []) (hc_sep : kSep ∉ c) (hc_uri : ':' ∉ c)
    (ha : validSegment a = true) (ha_sep : kSep ∉ a) (ha_uri : ':' ∉ a)
    (hb : validSegment b = true) (hb_sep : kSep ∉ b) (hb_uri : ':' ∉ b)
    (hs_sep : kSep ∉ s) (hs_uri : ':' ∉ s) :
    fromString (c ++ kSep :: (a ++ kSep :: b)) =
      .ok ⟨c ++ kSep :: (a ++ kSep :: b), c, a ++ kSep :: b, [a, b]⟩ ∧
    AzurePath.parent ⟨c ++ kSep :: (a ++ kSep :: b), c, a ++ kSep :: b, [a, b]⟩ =
      ⟨c ++ kSep :: a, c, a, [a]⟩ ∧
    fromString s = .ok ⟨s, s, [], []⟩ := by
  have hb_ne : b ≠ [] := (of_decide_eq_true hb).1
  have ha_ne : a ≠ [] := (of_decide_eq_true ha).1
  have hsplit : splitAbstractPath (a ++ kSep :: b) = [a, b] :=
    splitAbstractPath_pair ha_sep hb_sep
  refine ⟨?_, ?_, ?_⟩
  · have hnuri : isLikelyUri (c ++ kSep :: (a ++ kSep :: b)) = false := by
      apply isLikelyUri_eq_false
      simp only [List.mem_append, List.mem_cons]
      rintro (hx | hx | hx | hx)
      · exact hc_uri hx
      · exact absurd hx.symm (by decide)
      · exact ha_uri hx
      · rcases hx with hx | hx
        · exact absurd hx.symm (by decide)
        · exact hb_uri hx
    have hrts : removeTrailingSlash (c ++ kSep :: (a ++ kSep :: b)) =
        c ++ kSep :: (a ++ kSep :: b) := by
      have := removeTrailingSlash_append_of_last
        (x := c ++ kSep :: (a ++ [kSep])) hb_ne hb_sep
      simpa [List.append_assoc] using this
    have hv : validateAbstractPathParts (splitAbstractPath (a ++ kSep :: b)) = true := by
      rw [hsplit]
      simp [validateAbstractPathParts, ha, hb]
    have := fromString_append_sep (a ++ kSep :: b) c hc_ne hc_sep hnuri hrts hv
    rw [hsplit] at this
    exact this
  · simp [AzurePath.parent, joinAbstractPath, ha_ne]
  · unfold fromString
    rw [isLikelyUri_eq_false hs_uri]
    rw [removeTrailingSlash_of_not_mem hs_sep,
      firstSepIdx_of_not_mem s hs_sep]
    simp [removeTrailingSlash_of_not_mem hs_sep]

/-- Witness for C3: `c/a/b` parses and `parent()` pops `b`; `nosep`
parses to the bare-container address. -/
theorem parse_first_sep_and_parent_witness :
    fromString (str "c" ++ kSep :: (str "a" ++ kSep :: str "b")) =
      .ok ⟨str "c" ++ kSep :: (str "a" ++ kSep :: str "b"), str "c",
           str "a" ++ kSep :: str "b", [str "a", str "b"]⟩ ∧
    AzurePath.parent ⟨str "c" ++ kSep :: (str "a" ++ kSep :: str "b"), str "c",
        str "a" ++ kSep :: str "b", [str "a", str "b"]⟩ =
      ⟨str "c" ++ kSep :: str "a", str "c", str "a", [str "a"]⟩ ∧
    fromString (str "nosep") = .ok ⟨str "nosep", str "nosep", [], []⟩ :=
  parse_first_sep_and_parent (str "c") (str "a") (str "b") (str "nosep")
    (by decide) (by decide) (by decide) (by decide) (by decide) (by decide)
    (by decide) (by decide) (by decide) (by decide) (by decide)

/-- C7: any address produced by a successful parse reparses, from its
own `full_path`, to the very same address (hence to an equal one), and
address equality holds iff the `(container, path_to_file)` pairs are
equal. -/
theorem parse_roundtrip (s : Str) (a : AzurePath) :
    (fromString s = .ok a → fromString a.full_path = .ok a) ∧
    (∀ x y : AzurePath, AzurePath.beq x y = true ↔
      (x.container = y.container ∧ x.path_to_file = y.path_to_file)) := by
  constructor
  · intro h
    unfold fromString at h
    by_cases hU : isLikelyUri s = true
    · rw [if_pos hU] at h
      exact absurd h (by simp)
    · have hU' : isLikelyUri s = false := by
        rwa [Bool.not_eq_true] at hU
      rw [if_neg hU] at h
      have hU2 : isLikelyUri (removeTrailingSlash s) = false :=
        isLikelyUri_removeTrailingSlash hU'
      cases hIdx : firstSepIdx (removeTrailingSlash s) with
      | none =>
          rw [hIdx] at h
          simp only [Except.ok.injEq] at h
          subst h
          unfold fromString
          rw [if_neg (by simp [hU2])]
          rw [removeTrailingSlash_idem, hIdx]
      | some k =>
          cases k with
          | zero =>
              rw [hIdx] at h
              exact absurd h (by simp)
          | succ m =>
              rw [hIdx] at h
              simp only at h
              by_cases hv : validateAbstractPathParts
                  (splitAbstractPath ((removeTrailingSlash s).drop (m + 1 + 1))) = true
              · rw [if_pos hv] at h
                simp only [Except.ok.injEq] at h
                subst h
                unfold fromString
                rw [if_neg (by simp [hU2])]
                rw [removeTrailingSlash_idem, hIdx]
                simp only [if_pos hv]
              · rw [if_neg hv] at h
                exact absurd h (by simp)
  · intro x y
    simp [AzurePath.beq, Bool.and_eq_true]

/-- Witness for C7: the parse of `c/a/b` reparses from its `full_path`
to itself. -/
theorem parse_roundtrip_witness :
    fromString ((⟨str "c/a/b", str "c", str "a/b", [str "a", str "b"]⟩ :
        AzurePath).full_path) =
      .ok ⟨str "c/a/b", str "c", str "a/b", [str "a", str "b"]⟩ :=
  (parse_roundtrip (str "c/a/b")
    ⟨str "c/a/b", str "c", str "a/b", [str "a", str "b"]⟩).1 rfl

end AzureFs
